import Mathlib

/-!
Shallow embedding of `src/server/response_item.rs` of the openscad-LSP
repository: the declaration-item data model (`Param`, `ItemKind`, `Item`),
the parameter extractor (`Param.parse_declaration`), the flag decoder
(the `builtin_flags(...)` regex search inside `Item::parse`), the
declaration classifier (`Item.parse`) and the view synthesizer
(`make_snippet` / `make_label` / `make_hover` and the memoizing
`get_snippet` / `get_hover` / `get_label`).

Rust `String` values become Lean `String`; machine integer `u16` becomes
`Nat` (the decoder is proved to stay below `2 ^ 16`); fallible operations
become `Option`. Mutation of the memoization fields (`&mut self`) becomes
explicit state passing: a mutating accessor returns the produced string
together with the updated `Item`. A tree-sitter `Node` is modelled as a
tree carrying the node kind, its spanned source text (`node_text code
node` in the Rust source), whether the node is named, its range, and the
list of children each tagged with its optional field name.
-/

/-- Mirrors `lsp_types::Position`. -/
structure Position where
  line : Nat
  character : Nat
deriving DecidableEq, Repr

/-- Mirrors `lsp_types::Range`. -/
structure Range where
  startPos : Position
  endPos : Position
deriving DecidableEq, Repr

def Range.zero : Range := ⟨⟨0, 0⟩, ⟨0, 0⟩⟩

/-- A tree-sitter syntax node: kind, spanned source text (abstracting
`node_text(code, &node)`), whether the node is a named node, its lsp
range, and the ordered children, each paired with the field name it is
attached to (if any). -/
inductive Node where
| mk (kind : String) (text : String) (isNamed : Bool) (range : Range)
    (children : List (Option String × Node))

def Node.kind : Node → String
| .mk k _ _ _ _ => k

def Node.text : Node → String
| .mk _ t _ _ _ => t

def Node.isNamed : Node → Bool
| .mk _ _ b _ _ => b

def Node.lsp_range : Node → Range
| .mk _ _ _ r _ => r

def Node.childrenRaw : Node → List (Option String × Node)
| .mk _ _ _ _ cs => cs

/-- `node.children(&mut node.walk())`: all children in order. -/
def Node.childrenNodes (n : Node) : List Node :=
  n.childrenRaw.map (·.2)

/-- `node.child_by_field_name(name)`: first child attached to the field. -/
def Node.child_by_field_name (n : Node) (name : String) : Option Node :=
  (n.childrenRaw.find? (fun c => c.1 == some name)).map (·.2)

/-- `node.named_child(0)`: the first named child. -/
def Node.namedChild0 (n : Node) : Option Node :=
  n.childrenNodes.find? (·.isNamed)

/-- The rendering configuration: the `openscad-LSP` `Cli` struct restricted
to the one field this module reads, `args.ignore_default`. -/
structure Cli where
  ignore_default : Bool
deriving DecidableEq, Repr

def BuiltinFlags.IS_OPREATOR : Nat := 1

def BuiltinFlags.IGNORE_PARAM_NAME : Nat := 2

/-- Mirrors `struct Param`. -/
structure Param where
  name : String
  default : Option String
  range : Range
deriving DecidableEq, Repr

/-- The per-child match inside `Param::parse_declaration`: an `identifier`
child yields a default-free parameter, an `assignment` child with both a
`left` and a `right` field yields a defaulted parameter (ranged at the
default expression), everything else (including `special_variable`)
yields nothing. -/
def paramOfChild (child : Node) : Option Param :=
  if child.kind = "identifier" then
    some ⟨child.text, none, child.lsp_range⟩
  else if child.kind = "assignment" then
    (child.child_by_field_name "left").bind fun left =>
      (child.child_by_field_name "right").map fun right =>
        ⟨left.text, some right.text, right.lsp_range⟩
  else if child.kind = "special_variable" then
    none
  else
    none

/-- `Param::parse_declaration`: filter-map `paramOfChild` over the direct
children of the parameter-list node, preserving order. -/
def Param.parse_declaration (n : Node) : List Param :=
  n.childrenNodes.filterMap paramOfChild

/-- The filter step of `Param::make_snippet`:
`params.iter().filter(|p| p.default.is_none() || !args.ignore_default)`. -/
def keptParams (params : List Param) (args : Cli) : List Param :=
  params.filter fun p => p.default.isNone || !args.ignore_default

/-- One rendered argument of `Param::make_snippet`, for the parameter `p`
surviving the filter at (0-based) position `i`. -/
def renderParam (i : Nat) (p : Param) (ignore_name : Bool) (args : Cli) : String :=
  if !args.ignore_default && p.default.isSome then
    p.name ++ " = " ++ p.default.getD ""
  else if ignore_name then
    "$\x7b" ++ toString (i + 1) ++ ":" ++ p.name ++ "\x7d"
  else
    p.name ++ " = $\x7b" ++ toString (i + 1) ++ ":" ++ p.name ++ "\x7d"

/-- `Vec::join(", ")` over the rendered pieces. -/
def joinSep (sep : String) : List String → String
| [] => ""
| [x] => x
| x :: xs => x ++ sep ++ joinSep sep xs

/-- `Param::make_snippet`: keep the surviving parameters, enumerate them
from 0, render each and join with `", "`. -/
def Param.make_snippet (params : List Param) (ignore_name : Bool) (args : Cli) : String :=
  joinSep ", "
    ((keptParams params args).enum.map fun ip =>
      renderParam ip.1 ip.2 ignore_name args)

/-- Mirrors `enum ItemKind`. -/
inductive ItemKind where
| Variable
| Function (flags : Nat) (params : List Param)
| Keyword (text : String)
| Module (flags : Nat) (params : List Param)

/-- Mirrors `struct Item`; the three trailing `Option String` fields are
the memoization cells for hover, label and snippet. `Url` is abstracted
as the document string. -/
structure Item where
  name : String
  kind : ItemKind
  range : Range
  url : Option String
  is_builtin : Bool
  doc : Option String
  hover : Option String
  label : Option String
  snippet : Option String

/-- `Item::make_label`'s inner closure `format_params`. -/
def format_params (params : List Param) : String :=
  joinSep ", "
    (params.map fun p =>
      match p.default with
      | some d => p.name ++ "=" ++ d
      | none => p.name)

/-- `Item::make_label`. -/
def Item.make_label (it : Item) : String :=
  match it.kind with
  | ItemKind.Variable => it.name
  | ItemKind.Function _ params => it.name ++ "(" ++ format_params params ++ ")"
  | ItemKind.Keyword _ => it.name
  | ItemKind.Module _ params => it.name ++ "(" ++ format_params params ++ ")"

/-- `Item::make_hover` (a `&self` method: it reads the memoized label when
present but mutates nothing). -/
def Item.make_hover (it : Item) : String :=
  let label :=
    match it.label with
    | some l => l
    | none => it.make_label
  let label :=
    match it.kind with
    | ItemKind.Function _ _ => "```scad\nfunction " ++ label ++ "\n```"
    | ItemKind.Module _ _ => "```scad\nmodule " ++ label ++ "\n```"
    | _ => "```scad\n" ++ label ++ "\n```"
  match it.doc with
  | some doc =>
      if it.is_builtin then
        label ++ "\n---\n\n" ++ doc ++ "\n"
      else
        label ++ "\n---\n\n<pre>\n" ++ doc ++ "\n</pre>\n"
  | none => label

/-- `Item::make_snippet` (a `&mut self` method: it stores the computed
snippet and returns it; here it returns the string with the updated item). -/
def Item.make_snippet (it : Item) (args : Cli) : String × Item :=
  let snippet :=
    match it.kind with
    | ItemKind.Variable => it.name
    | ItemKind.Function flags params =>
        it.name ++ "(" ++
          Param.make_snippet params
            (Nat.land BuiltinFlags.IGNORE_PARAM_NAME flags != 0) args ++ ");$0"
    | ItemKind.Keyword comp => comp
    | ItemKind.Module flags params =>
        let ps := Param.make_snippet params
          (Nat.land BuiltinFlags.IGNORE_PARAM_NAME flags != 0) args
        if Nat.land BuiltinFlags.IS_OPREATOR flags != 0 then
          it.name ++ "(" ++ ps ++ ") $0"
        else
          it.name ++ "(" ++ ps ++ ");$0"
  (snippet, { it with snippet := some snippet })

/-- `Item::get_snippet`: memoizing accessor for the snippet view. -/
def Item.get_snippet (it : Item) (args : Cli) : String × Item :=
  match it.snippet with
  | some s => (s, it)
  | none =>
      let r := it.make_snippet args
      (r.1, { r.2 with snippet := some r.1 })

/-- `Item::get_hover`: memoizing accessor for the hover view. -/
def Item.get_hover (it : Item) : String × Item :=
  match it.hover with
  | some s => (s, it)
  | none =>
      let s := it.make_hover
      (s, { it with hover := some s })

/-- `Item::get_label`: memoizing accessor for the label view. -/
def Item.get_label (it : Item) : String × Item :=
  match it.label with
  | some s => (s, it)
  | none =>
      let s := it.make_label
      (s, { it with label := some s })

/-- The literal prefix of the flag marker regex
`builtin_flags\((?P<flags>[01]{16})\)`. -/
def flagMarkerPre : List Char := "builtin_flags(".data

def isBinChar (c : Char) : Bool := c == '0' || c == '1'

/-- Whether the marker regex matches at the very start of `cs`; on a
match, returns the 16-character `flags` capture group. The pattern is
rigid (a literal prefix, exactly 16 characters from `[01]`, a literal
close paren), so matching at one position is deterministic. -/
def matchHere (cs : List Char) : Option (List Char) :=
  if flagMarkerPre.isPrefixOf cs then
    let rest := cs.drop flagMarkerPre.length
    let f := rest.take 16
    if f.length == 16 && f.all isBinChar && ((rest.drop 16).head? == some ')') then
      some f
    else
      none
  else
    none

/-- Leftmost-match search of the marker regex over the text, as
`Regex::captures` performs it: try each start position left to right. -/
def findFlagsAux : List Char → Option (List Char)
| [] => none
| c :: cs =>
    match matchHere (c :: cs) with
    | some f => some f
    | none => findFlagsAux cs

/-- The value accumulated by binary digit parsing, most significant digit
first, as `u16::from_str_radix(s, 2)` accumulates it. -/
def binVal (f : List Char) : Nat :=
  f.foldl (fun a c => 2 * a + (if c = '1' then 1 else 0)) 0

/-- Model of `u16::from_str_radix(s, 2)`: fails on an empty string or a
non-binary digit, and on overflow past `u16::MAX`; otherwise returns the
accumulated value. -/
def u16_from_str_radix2 (f : List Char) : Option Nat :=
  if !f.isEmpty && f.all isBinChar then
    if binVal f < 65536 then some (binVal f) else none
  else
    none

/-- The flag decoder applied to one designated node's text: search for the
marker; on a match feed the capture to `u16::from_str_radix(_, 2)` and
`unwrap()` it (the `.getD 0` branch is proved unreachable); otherwise 0. -/
def decodeFlags (s : String) : Nat :=
  match findFlagsAux s.data with
  | some f => (u16_from_str_radix2 f).getD 0
  | none => 0

/-- The node a module's flags are read from: the first named statement of
the `body` field. -/
def designatedModuleChild (n : Node) : Option Node :=
  (n.child_by_field_name "body").bind fun body => body.namedChild0

/-- The node a function's flags are read from: the last child of the
declaration. -/
def designatedFunctionChild (n : Node) : Option Node :=
  n.childrenNodes.getLast?

/-- The module branch of flag extraction in `Item::parse`: decode the
first body statement's text, or 0 when the designated node is absent. -/
def Item.moduleFlags (n : Node) : Nat :=
  match designatedModuleChild n with
  | some child => decodeFlags child.text
  | none => 0

/-- The function branch of flag extraction in `Item::parse`. -/
def Item.functionFlags (n : Node) : Nat :=
  match designatedFunctionChild n with
  | some child => decodeFlags child.text
  | none => 0

/-- `parameters` field handling shared by the module and function branches
of `Item::parse`: `map_or(vec![], |params| Param::parse_declaration(..))`. -/
def paramsField (n : Node) : List Param :=
  match n.child_by_field_name "parameters" with
  | some p => Param.parse_declaration p
  | none => []

/-- `Item::parse`: classify one syntax node, producing an `Item` for a
module declaration, function declaration or assignment with the required
name field present, and `none` otherwise. All non-overridden `Item`
fields take their `Default::default()` values. -/
def Item.parse (n : Node) : Option Item :=
  if n.kind = "module_declaration" then
    (n.child_by_field_name "name").map fun nameNode =>
      { name := nameNode.text
        kind := ItemKind.Module (Item.moduleFlags n) (paramsField n)
        range := n.lsp_range
        url := none, is_builtin := false, doc := none
        hover := none, label := none, snippet := none }
  else if n.kind = "function_declaration" then
    (n.child_by_field_name "name").map fun nameNode =>
      { name := nameNode.text
        kind := ItemKind.Function (Item.functionFlags n) (paramsField n)
        range := n.lsp_range
        url := none, is_builtin := false, doc := none
        hover := none, label := none, snippet := none }
  else if n.kind = "assignment" then
    (n.child_by_field_name "left").map fun nameNode =>
      { name := nameNode.text
        kind := ItemKind.Variable
        range := n.lsp_range
        url := none, is_builtin := false, doc := none
        hover := none, label := none, snippet := none }
  else
    none

/-- The specification-side reading of the 16 marker characters: a binary
numeral whose leftmost character is the most significant bit. Stated
independently of the digit-parsing accumulator so that agreement with
`binVal` is a theorem, not a definition. -/
def specBinVal : List Char → Nat
| [] => 0
| c :: cs => (if c = '1' then 1 else 0) * 2 ^ cs.length + specBinVal cs

/-- `pat` occurs as a contiguous substring of `s`. -/
def strContains (s pat : String) : Prop :=
  ∃ l r, s.data = l ++ pat.data ++ r

/-- The string contains no dollar character (hence none of the snippet
markers, which all start with a dollar). -/
def noDollar (s : String) : Prop :=
  '$' ∉ s.data

instance noDollar.dec (s : String) : Decidable (noDollar s) :=
  inferInstanceAs (Decidable ('$' ∉ s.data))

/-- The parameter list carried by an item kind. -/
def kindParams : ItemKind → List Param
| ItemKind.Function _ ps => ps
| ItemKind.Module _ ps => ps
| ItemKind.Variable => []
| ItemKind.Keyword _ => []

/-- The label `Item::make_hover` actually wraps: the memoized label when
present, else a fresh `make_label`. -/
def Item.effective_label (it : Item) : String :=
  match it.label with
  | some l => l
  | none => it.make_label

/-- The fenced code block built by `Item::make_hover` before the optional
doc text is appended. -/
def codeBlockOf (it : Item) : String :=
  match it.kind with
  | ItemKind.Function _ _ => "```scad\nfunction " ++ it.effective_label ++ "\n```"
  | ItemKind.Module _ _ => "```scad\nmodule " ++ it.effective_label ++ "\n```"
  | _ => "```scad\n" ++ it.effective_label ++ "\n```"

/-- Parameter `a`, no default. -/
def pa : Param := ⟨"a", none, Range.zero⟩

/-- Parameter `b`, default `5`. -/
def pb : Param := ⟨"b", some "5", Range.zero⟩

/-- The worked example of the specification: a function item named `name`
with parameters `a` (no default) and `b` (default `5`) and the
`IGNORE_PARAM_NAME` flag set. -/
def itemAB : Item :=
  ⟨"name", ItemKind.Function BuiltinFlags.IGNORE_PARAM_NAME [pa, pb],
    Range.zero, none, false, none, none, none, none⟩

/-- A module item named `name` with single parameter `a`, flags exactly
`IS_OPREATOR`. -/
def itemOp : Item :=
  ⟨"name", ItemKind.Module BuiltinFlags.IS_OPREATOR [pa],
    Range.zero, none, false, none, none, none, none⟩

/-- A concrete `module_declaration` node with a `name` field and nothing
else. -/
def moduleNode : Node :=
  Node.mk "module_declaration" "module foo();" true Range.zero
    [(some "name", Node.mk "identifier" "foo" true Range.zero [])]

/-- A concrete parameter-list node: one identifier, one special variable,
one well-formed assignment, one anonymous punctuation child. -/
def paramListNode : Node :=
  Node.mk "parameters" "(a, $fn, b = 5)" true Range.zero
    [(none, Node.mk "identifier" "a" true Range.zero []),
     (none, Node.mk "special_variable" "$fn" true Range.zero []),
     (none, Node.mk "assignment" "b = 5" true Range.zero
        [(some "left", Node.mk "identifier" "b" true Range.zero []),
         (some "right", Node.mk "number" "5" true Range.zero [])]),
     (none, Node.mk "," "," false Range.zero [])]

theorem matchHere_marker (f post : List Char) (hlen : f.length = 16)
    (hbin : f.all isBinChar = true) :
    matchHere (flagMarkerPre ++ (f ++ ')' :: post)) = some f := by
  have hp : flagMarkerPre.isPrefixOf (flagMarkerPre ++ (f ++ ')' :: post)) = true :=
    List.isPrefixOf_iff_prefix.mpr ⟨_, rfl⟩
  have ht : (f ++ ')' :: post).take 16 = f := by
    rw [← hlen]
    exact List.take_left f (')' :: post)
  have hd : (f ++ ')' :: post).drop 16 = ')' :: post := by
    rw [← hlen]
    exact List.drop_left f (')' :: post)
  simp [matchHere, hp, List.drop_left, ht, hd, hlen, hbin]

theorem findFlagsAux_leftmost (cs : List Char) : ∀ (k : Nat) (f : List Char),
    matchHere (cs.drop k) = some f →
    (∀ i, i < k → matchHere (cs.drop i) = none) →
    findFlagsAux cs = some f := by
  induction cs with
  | nil =>
      intro k f hk hmin
      have hemp : flagMarkerPre.isPrefixOf ([] : List Char) = false := rfl
      rw [List.drop_nil] at hk
      simp [matchHere, hemp] at hk
  | cons c cs ih =>
      intro k f hk hmin
      cases k with
      | zero =>
          rw [List.drop_zero] at hk
          simp only [findFlagsAux, hk]
      | succ k =>
          have h0 : matchHere (c :: cs) = none := by
            have := hmin 0 (Nat.succ_pos k)
            simpa using this
          simp only [findFlagsAux, h0]
          exact ih k f (by simpa [List.drop_succ_cons] using hk)
            fun i hi => by
              have := hmin (i + 1) (by omega)
              simpa [List.drop_succ_cons] using this

theorem findFlagsAux_none (cs : List Char)
    (h : ∀ i, i ≤ cs.length → matchHere (cs.drop i) = none) :
    findFlagsAux cs = none := by
  induction cs with
  | nil => rfl
  | cons c cs ih =>
      have h0 : matchHere (c :: cs) = none := by
        have := h 0 (by omega)
        simpa using this
      simp only [findFlagsAux, h0]
      exact ih fun i hi => by
        have := h (i + 1) (by simp; omega)
        simpa [List.drop_succ_cons] using this

theorem binVal_foldl_aux (f : List Char) : ∀ a : Nat,
    f.foldl (fun a c => 2 * a + (if c = '1' then 1 else 0)) a
      = a * 2 ^ f.length + specBinVal f := by
  induction f with
  | nil =>
      intro a
      simp [specBinVal]
  | cons c cs ih =>
      intro a
      rw [List.foldl_cons, ih]
      simp only [specBinVal, List.length_cons, pow_succ]
      ring

theorem binVal_eq_specBinVal (f : List Char) : binVal f = specBinVal f := by
  have := binVal_foldl_aux f 0
  simpa [binVal] using this

theorem specBinVal_lt (f : List Char) : specBinVal f < 2 ^ f.length := by
  induction f with
  | nil => simp [specBinVal]
  | cons c cs ih =>
      rw [specBinVal, List.length_cons, pow_succ]
      have hb : (if c = '1' then 1 else 0) ≤ 1 := by split <;> omega
      have hbx : (if c = '1' then 1 else 0) * 2 ^ cs.length ≤ 2 ^ cs.length := by
        calc (if c = '1' then 1 else 0) * 2 ^ cs.length
            ≤ 1 * 2 ^ cs.length := Nat.mul_le_mul_right _ hb
        _ = 2 ^ cs.length := one_mul _
      omega

theorem u16_valid (f : List Char) (hlen : f.length = 16)
    (hbin : f.all isBinChar = true) :
    u16_from_str_radix2 f = some (binVal f) := by
  have hne : f.isEmpty = false := by
    cases f with
    | nil => simp at hlen
    | cons c cs => rfl
  have hb : binVal f < 65536 := by
    calc binVal f = specBinVal f := binVal_eq_specBinVal f
    _ < 2 ^ f.length := specBinVal_lt f
    _ = 65536 := by rw [hlen]; norm_num
  simp [u16_from_str_radix2, hne, hbin, hb]

theorem matchHere_props (cs f : List Char) (h : matchHere cs = some f) :
    f.length = 16 ∧ f.all isBinChar = true := by
  simp only [matchHere] at h
  split at h
  · split at h
    · injection h with h
      subst h
      rename_i hc
      simp only [Bool.and_eq_true, beq_iff_eq] at hc
      exact ⟨hc.1.1, hc.1.2⟩
    · simp at h
  · simp at h

theorem findFlagsAux_props (cs f : List Char) (h : findFlagsAux cs = some f) :
    f.length = 16 ∧ f.all isBinChar = true := by
  induction cs with
  | nil => simp [findFlagsAux] at h
  | cons c cs ih =>
      simp only [findFlagsAux] at h
      cases hm : matchHere (c :: cs) with
      | some g =>
          rw [hm] at h
          injection h with h
          subst h
          exact matchHere_props _ _ hm
      | none =>
          rw [hm] at h
          exact ih h

/-- Claim C2: for any text splitting as `pre ++ builtin_flags( ++ f ++ )
++ post` with `f` sixteen binary characters and no match of the marker
pattern starting inside `pre` (i.e. this marker occurrence is the
leftmost one, which is the occurrence the regex search designates), the
decoded value is the most-significant-bit-first binary reading of `f`;
the decoder returns 0 when no position of the text matches the marker
pattern (absent or malformed marker) and when the designated node does
not exist, and always stays within unsigned 16-bit range. -/
theorem c2_flag_decoder :
    (∀ pre f post : List Char, f.length = 16 → f.all isBinChar = true →
        (∀ i, i < pre.length →
          matchHere ((pre ++ (flagMarkerPre ++ (f ++ ')' :: post))).drop i) = none) →
        decodeFlags (String.mk (pre ++ (flagMarkerPre ++ (f ++ ')' :: post))))
          = specBinVal f)
    ∧ (∀ cs : List Char, (∀ i, i ≤ cs.length → matchHere (cs.drop i) = none) →
        decodeFlags (String.mk cs) = 0)
    ∧ (∀ s : String, decodeFlags s < 65536)
    ∧ (∀ n : Node, designatedModuleChild n = none → Item.moduleFlags n = 0)
    ∧ (∀ n : Node, designatedFunctionChild n = none → Item.functionFlags n = 0) := by
  refine ⟨?_, ?_, ?_, ?_, ?_⟩
  · intro pre f post hlen hbin hleft
    unfold decodeFlags
    have hdata : (String.mk (pre ++ (flagMarkerPre ++ (f ++ ')' :: post)))).data
        = pre ++ (flagMarkerPre ++ (f ++ ')' :: post)) := rfl
    have hdrop : (pre ++ (flagMarkerPre ++ (f ++ ')' :: post))).drop pre.length
        = flagMarkerPre ++ (f ++ ')' :: post) :=
      List.drop_left pre _
    rw [hdata, findFlagsAux_leftmost _ pre.length f
      (by rw [hdrop]; exact matchHere_marker f post hlen hbin) hleft]
    show (u16_from_str_radix2 f).getD 0 = specBinVal f
    rw [u16_valid f hlen hbin]
    simpa using binVal_eq_specBinVal f
  · intro cs h
    unfold decodeFlags
    rw [show (String.mk cs).data = cs from rfl, findFlagsAux_none cs h]
  · intro s
    unfold decodeFlags
    cases hf : findFlagsAux s.data with
    | none => norm_num
    | some f =>
        rcases hu : u16_from_str_radix2 f with _ | v
        · show (u16_from_str_radix2 f).getD 0 < 65536
          rw [hu]
          norm_num
        · have hv : v < 65536 := by
            unfold u16_from_str_radix2 at hu
            by_cases hc : (!f.isEmpty && f.all isBinChar) = true
            · rw [if_pos hc] at hu
              by_cases hlt : binVal f < 65536
              · rw [if_pos hlt] at hu
                injection hu with hu
                omega
              · rw [if_neg hlt] at hu
                simp at hu
            · rw [if_neg hc] at hu
              simp at hu
          show (u16_from_str_radix2 f).getD 0 < 65536
          rw [hu]
          simpa using hv
  · intro n h
    simp [Item.moduleFlags, h]
  · intro n h
    simp [Item.functionFlags, h]

theorem c2_flag_decoder_witness :
    decodeFlags (String.mk
        ("cube(1); ".data ++ (flagMarkerPre ++ ("1000000000000001".data ++ ')' :: " y".data))))
      = specBinVal "1000000000000001".data
    ∧ specBinVal "1000000000000001".data = 32769
    ∧ decodeFlags (String.mk "builtin_flags(01)".data) = 0
    ∧ decodeFlags "no marker here" < 65536
    ∧ Item.moduleFlags (Node.mk "module_declaration" "" true Range.zero []) = 0
    ∧ Item.functionFlags (Node.mk "function_declaration" "" true Range.zero []) = 0 :=
  ⟨c2_flag_decoder.1 "cube(1); ".data "1000000000000001".data " y".data
      (by decide) (by decide) (by decide),
   by decide,
   c2_flag_decoder.2.1 "builtin_flags(01)".data (by decide),
   c2_flag_decoder.2.2.1 "no marker here",
   c2_flag_decoder.2.2.2.1 _ rfl,
   c2_flag_decoder.2.2.2.2 _ rfl⟩

/-- Claim C10: any string the marker search captures has exactly 16
binary characters, its parsed value is below `2 ^ 16`, and the modelled
`u16::from_str_radix(flag_str, 2)` therefore succeeds — the `unwrap()`
in `Item::parse` can never hit the error branch. -/
theorem c10_from_str_radix_safe (cs f : List Char) (h : findFlagsAux cs = some f) :
    f.length = 16 ∧ f.all isBinChar = true ∧ binVal f < 65536
    ∧ u16_from_str_radix2 f = some (binVal f) := by
  obtain ⟨h1, h2⟩ := findFlagsAux_props cs f h
  have h3 : binVal f < 65536 := by
    rw [binVal_eq_specBinVal]
    calc specBinVal f < 2 ^ f.length := specBinVal_lt f
    _ = 65536 := by rw [h1]; norm_num
  exact ⟨h1, h2, h3, u16_valid f h1 h2⟩

theorem c10_from_str_radix_safe_witness :
    "0000000000000101".data.length = 16
    ∧ "0000000000000101".data.all isBinChar = true
    ∧ binVal "0000000000000101".data < 65536
    ∧ u16_from_str_radix2 "0000000000000101".data
        = some (binVal "0000000000000101".data) :=
  c10_from_str_radix_safe "builtin_flags(0000000000000101)".data
    "0000000000000101".data (by decide)

theorem noDollar_append {a b : String} (ha : noDollar a) (hb : noDollar b) :
    noDollar (a ++ b) := by
  unfold noDollar at *
  rw [String.data_append]
  intro h
  rcases List.mem_append.mp h with h | h
  · exact ha h
  · exact hb h

theorem noDollar_joinSep (sep : String) (l : List String) (hsep : noDollar sep)
    (hl : ∀ x ∈ l, noDollar x) : noDollar (joinSep sep l) := by
  induction l with
  | nil =>
      intro h
      simp [joinSep] at h
  | cons x xs ih =>
      cases xs with
      | nil => exact hl x (by simp)
      | cons y ys =>
          have hx : noDollar x := hl x (by simp)
          have hrest : noDollar (joinSep sep (y :: ys)) :=
            ih fun z hz => hl z (List.mem_cons_of_mem _ hz)
          exact noDollar_append (noDollar_append hx hsep) hrest

/-- Claim C1, amended — the keep condition is the code's
`p.default.is_none() || !args.ignore_default`: a defaulted parameter is
kept exactly when the ignore-defaults configuration is FALSE, parameters
without defaults are always kept, and on the worked example
(`a` no default, `b` default `5`, `IGNORE_PARAM_NAME` set) the snippet
with ignore-defaults = false is `name(${1:a}, b = 5);$0` (b kept as
plain text) and with ignore-defaults = true it is `name(${1:a});$0`
(b dropped). -/
theorem c1_default_kept_iff (params : List Param) (args : Cli) (p : Param) (d : String)
    (hp : p ∈ params) (hd : p.default = some d) :
    (p ∈ keptParams params args ↔ args.ignore_default = false)
    ∧ (∀ q ∈ params, q.default = none → q ∈ keptParams params args)
    ∧ (itemAB.make_snippet (Cli.mk false)).1 = "name($\x7b1:a\x7d, b = 5);$0"
    ∧ (itemAB.make_snippet (Cli.mk true)).1 = "name($\x7b1:a\x7d);$0" := by
  refine ⟨?_, ?_, by decide, by decide⟩
  · unfold keptParams
    rw [List.mem_filter]
    cases hid : args.ignore_default <;> simp [hd, hp]
  · intro q hq hqd
    unfold keptParams
    rw [List.mem_filter]
    exact ⟨hq, by simp [hqd]⟩

theorem c1_default_kept_iff_witness :
    (pb ∈ keptParams [pa, pb] (Cli.mk true) ↔ (Cli.mk true).ignore_default = false)
    ∧ (∀ q ∈ [pa, pb], q.default = none → q ∈ keptParams [pa, pb] (Cli.mk true))
    ∧ (itemAB.make_snippet (Cli.mk false)).1 = "name($\x7b1:a\x7d, b = 5);$0"
    ∧ (itemAB.make_snippet (Cli.mk true)).1 = "name($\x7b1:a\x7d);$0" :=
  c1_default_kept_iff [pa, pb] (Cli.mk true) pb "5" (by decide) (by decide)

/-- Claim C1, counterexample to the claim as stated: on the worked
example the snippet with ignore-defaults = false is NOT `name(${1:a});$0`
(the defaulted `b` is kept, not dropped), and with ignore-defaults = true
it is NOT `name(a, b = 5);$0` (the defaulted `b` is dropped, and `a`
renders as a placeholder). -/
theorem c1_counterexample :
    (itemAB.make_snippet (Cli.mk false)).1 ≠ "name($\x7b1:a\x7d);$0"
    ∧ (itemAB.make_snippet (Cli.mk true)).1 ≠ "name(a, b = 5);$0" := by
  exact ⟨by decide, by decide⟩

/-- Claim C4, amended: for a Module item whose flags have `IS_OPREATOR`
set and `IGNORE_PARAM_NAME` clear, with single parameter `a` (no
default), the snippet is `name(a = ${1:a}) $0` — the parameter renders
as a named placeholder since `IGNORE_PARAM_NAME` is unset; there is no
trailing semicolon terminator and a space precedes the final-cursor
marker `$0`. -/
theorem c4_operator_snippet (flags : Nat) (args : Cli)
    (hop : Nat.land BuiltinFlags.IS_OPREATOR flags ≠ 0)
    (hig : Nat.land BuiltinFlags.IGNORE_PARAM_NAME flags = 0) :
    (Item.make_snippet
        ⟨"name", ItemKind.Module flags [pa], Range.zero, none, false, none, none, none, none⟩
        args).1
      = "name(a = $\x7b1:a\x7d) $0" := by
  have h1 : (Nat.land BuiltinFlags.IGNORE_PARAM_NAME flags != 0) = false := by
    simp [hig]
  have h2 : (Nat.land BuiltinFlags.IS_OPREATOR flags != 0) = true := by
    simp [hop]
  obtain ⟨iv⟩ := args
  cases iv <;> simp [Item.make_snippet, h1, h2] <;> decide

theorem c4_operator_snippet_witness :
    (Item.make_snippet
        ⟨"name", ItemKind.Module 1 [pa], Range.zero, none, false, none, none, none, none⟩
        (Cli.mk false)).1
      = "name(a = $\x7b1:a\x7d) $0" :=
  c4_operator_snippet 1 (Cli.mk false) (by decide) (by decide)

/-- Claim C4, counterexample to the claim as stated: with flags exactly
`IS_OPREATOR` the snippet is `name(a = ${1:a}) $0`, not the claimed
`name(${1:a}) $0` (the bare-placeholder form needs `IGNORE_PARAM_NAME`). -/
theorem c4_counterexample :
    (itemOp.make_snippet (Cli.mk false)).1 = "name(a = $\x7b1:a\x7d) $0"
    ∧ (itemOp.make_snippet (Cli.mk false)).1 ≠ "name($\x7b1:a\x7d) $0" := by
  exact ⟨by decide, by decide⟩

/-- Claim C7: each memoized accessor called twice in a row (same
configuration for the snippet) returns the same string both times, the
second call leaves the item untouched, and after the first call the
corresponding memoization cell holds the returned string for good. -/
theorem c7_memoization (it : Item) (args : Cli) :
    ((it.get_snippet args).2.get_snippet args).1 = (it.get_snippet args).1
    ∧ ((it.get_snippet args).2.get_snippet args).2 = (it.get_snippet args).2
    ∧ (it.get_snippet args).2.snippet = some (it.get_snippet args).1
    ∧ (it.get_hover.2.get_hover).1 = it.get_hover.1
    ∧ (it.get_hover.2.get_hover).2 = it.get_hover.2
    ∧ it.get_hover.2.hover = some it.get_hover.1
    ∧ (it.get_label.2.get_label).1 = it.get_label.1
    ∧ (it.get_label.2.get_label).2 = it.get_label.2
    ∧ it.get_label.2.label = some it.get_label.1 := by
  obtain ⟨nm, k, r, u, b, dc, hv, lb, sn⟩ := it
  cases hv <;> cases lb <;> cases sn <;>
    simp [Item.get_snippet, Item.get_hover, Item.get_label, Item.make_snippet]

/-- Claim C8: the snippet cache is neither invalidated nor keyed by the
configuration — after a first call under one configuration, every later
call returns the string computed under that first configuration, whatever
configuration the later call passes. -/
theorem c8_snippet_cache_not_keyed (it : Item) (a1 a2 a3 : Cli) :
    ((it.get_snippet a1).2.get_snippet a2).1 = (it.get_snippet a1).1
    ∧ ((it.get_snippet a1).2.get_snippet a2).1 = ((it.get_snippet a1).2.get_snippet a3).1 := by
  obtain ⟨nm, k, r, u, b, dc, hv, lb, sn⟩ := it
  cases sn <;> simp [Item.get_snippet, Item.make_snippet]

/-- Claim C5: the hover wraps the effective label (memoized label when
present, else a fresh `make_label`) in a fenced code block tagged `scad`,
with keyword prefix `function ` / `module ` for the two callable kinds;
with a doc present, a builtin item appends the doc directly after the
`---` separator while a non-builtin item wraps it in a `<pre>` block. -/
theorem c5_hover_format (it : Item) (d : String) :
    (it.doc = none → it.make_hover = codeBlockOf it)
    ∧ (it.doc = some d → it.is_builtin = true →
        it.make_hover = codeBlockOf it ++ "\n---\n\n" ++ d ++ "\n")
    ∧ (it.doc = some d → it.is_builtin = false →
        it.make_hover = codeBlockOf it ++ "\n---\n\n<pre>\n" ++ d ++ "\n</pre>\n")
    ∧ (∀ fl ps, it.kind = ItemKind.Function fl ps →
        codeBlockOf it = "```scad\nfunction " ++ it.effective_label ++ "\n```")
    ∧ (∀ fl ps, it.kind = ItemKind.Module fl ps →
        codeBlockOf it = "```scad\nmodule " ++ it.effective_label ++ "\n```")
    ∧ (it.kind = ItemKind.Variable →
        codeBlockOf it = "```scad\n" ++ it.effective_label ++ "\n```")
    ∧ (∀ s, it.kind = ItemKind.Keyword s →
        codeBlockOf it = "```scad\n" ++ it.effective_label ++ "\n```")
    ∧ (it.label = none → it.effective_label = it.make_label)
    ∧ (∀ l, it.label = some l → it.effective_label = l) := by
  refine ⟨?_, ?_, ?_, ?_, ?_, ?_, ?_, ?_, ?_⟩
  · intro h
    cases hk : it.kind <;>
      simp [Item.make_hover, codeBlockOf, Item.effective_label, h, hk]
  · intro h hb
    cases hk : it.kind <;>
      simp [Item.make_hover, codeBlockOf, Item.effective_label, h, hb, hk]
  · intro h hb
    cases hk : it.kind <;>
      simp [Item.make_hover, codeBlockOf, Item.effective_label, h, hb, hk]
  · intro fl ps h
    simp [codeBlockOf, h]
  · intro fl ps h
    simp [codeBlockOf, h]
  · intro h
    simp [codeBlockOf, h]
  · intro s h
    simp [codeBlockOf, h]
  · intro h
    simp [Item.effective_label, h]
  · intro l h
    simp [Item.effective_label, h]

theorem c5_hover_format_witness :
    ((Item.mk "cube" (ItemKind.Module 0 []) Range.zero none true (some "docs")
        none none none).make_hover
      = codeBlockOf (Item.mk "cube" (ItemKind.Module 0 []) Range.zero none true (some "docs")
          none none none) ++ "\n---\n\n" ++ "docs" ++ "\n")
    ∧ ((Item.mk "f" (ItemKind.Function 0 []) Range.zero none false (some "mine")
        none none none).make_hover
      = codeBlockOf (Item.mk "f" (ItemKind.Function 0 []) Range.zero none false (some "mine")
          none none none) ++ "\n---\n\n<pre>\n" ++ "mine" ++ "\n</pre>\n") :=
  ⟨(c5_hover_format
      (Item.mk "cube" (ItemKind.Module 0 []) Range.zero none true (some "docs") none none none)
      "docs").2.1 rfl rfl,
   (c5_hover_format
      (Item.mk "f" (ItemKind.Function 0 []) Range.zero none false (some "mine") none none none)
      "mine").2.2.1 rfl rfl⟩

/-- Claim C6: the label is the plain signature — the bare name for
Variable and Keyword items, `name(PARAMS)` with `name` or `name=default`
entries for Function and Module items (defaults always shown: the label
depends on no configuration) — and when the item's own strings are free
of the dollar character, the label contains neither `${` nor `$0`. -/
theorem c6_label_plain (it : Item) :
    (it.kind = ItemKind.Variable → it.make_label = it.name)
    ∧ (∀ s, it.kind = ItemKind.Keyword s → it.make_label = it.name)
    ∧ (∀ fl ps, it.kind = ItemKind.Function fl ps →
        it.make_label = it.name ++ "(" ++ format_params ps ++ ")")
    ∧ (∀ fl ps, it.kind = ItemKind.Module fl ps →
        it.make_label = it.name ++ "(" ++ format_params ps ++ ")")
    ∧ (noDollar it.name →
        (∀ p ∈ kindParams it.kind, noDollar p.name ∧ noDollar (p.default.getD "")) →
        ¬ strContains it.make_label "$\x7b" ∧ ¬ strContains it.make_label "$0") := by
  have fmt : ∀ ps : List Param,
      (∀ p ∈ ps, noDollar p.name ∧ noDollar (p.default.getD "")) →
      noDollar (format_params ps) := by
    intro ps hps
    unfold format_params
    apply noDollar_joinSep _ _ (by simp [noDollar])
    intro x hx
    rcases List.mem_map.mp hx with ⟨p, hp, rfl⟩
    rcases hps p hp with ⟨hn, hdft⟩
    cases hdd : p.default with
    | none => simpa [hdd] using hn
    | some dd =>
        rw [hdd] at hdft
        simp only [Option.getD_some] at hdft
        simp only [hdd]
        exact noDollar_append (noDollar_append hn (by simp [noDollar])) hdft
  refine ⟨?_, ?_, ?_, ?_, ?_⟩
  · intro h
    simp [Item.make_label, h]
  · intro s h
    simp [Item.make_label, h]
  · intro fl ps h
    simp [Item.make_label, h]
  · intro fl ps h
    simp [Item.make_label, h]
  · intro hn hps
    have hlab : noDollar it.make_label := by
      cases hk : it.kind with
      | Variable => simpa [Item.make_label, hk] using hn
      | Keyword s => simpa [Item.make_label, hk] using hn
      | Function fl ps =>
          have hfmt := fmt ps (by rw [hk] at hps; simpa [kindParams] using hps)
          have : it.make_label = it.name ++ "(" ++ format_params ps ++ ")" := by
            simp [Item.make_label, hk]
          rw [this]
          exact noDollar_append
            (noDollar_append (noDollar_append hn (by simp [noDollar])) hfmt)
            (by simp [noDollar])
      | Module fl ps =>
          have hfmt := fmt ps (by rw [hk] at hps; simpa [kindParams] using hps)
          have : it.make_label = it.name ++ "(" ++ format_params ps ++ ")" := by
            simp [Item.make_label, hk]
          rw [this]
          exact noDollar_append
            (noDollar_append (noDollar_append hn (by simp [noDollar])) hfmt)
            (by simp [noDollar])
    constructor
    · rintro ⟨l, r, hs⟩
      apply hlab
      rw [hs]
      exact List.mem_append.mpr
        (Or.inl (List.mem_append.mpr (Or.inr (show '$' ∈ "$\x7b".data by decide))))
    · rintro ⟨l, r, hs⟩
      apply hlab
      rw [hs]
      exact List.mem_append.mpr
        (Or.inl (List.mem_append.mpr (Or.inr (show '$' ∈ "$0".data by decide))))

theorem length_filterMap_paramOfChild (l : List Node) :
    (l.filterMap paramOfChild).length
      = l.countP (fun c => c.kind == "identifier")
        + l.countP (fun c =>
            c.kind == "assignment"
            && (c.child_by_field_name "left").isSome
            && (c.child_by_field_name "right").isSome) := by
  induction l with
  | nil => rfl
  | cons c l ih =>
      rw [List.filterMap_cons, List.countP_cons, List.countP_cons]
      by_cases hid : c.kind = "identifier"
      · have h1 : paramOfChild c = some ⟨c.text, none, c.lsp_range⟩ := by
          simp [paramOfChild, hid]
        rw [h1]
        simp [hid, ih]
        omega
      · by_cases hasg : c.kind = "assignment"
        · cases hl : c.child_by_field_name "left" with
          | none =>
              have h1 : paramOfChild c = none := by
                simp [paramOfChild, hid, hasg, hl]
              rw [h1]
              simp [hid, hasg, hl, ih]
          | some lt =>
              cases hr : c.child_by_field_name "right" with
              | none =>
                  have h1 : paramOfChild c = none := by
                    simp [paramOfChild, hid, hasg, hl, hr]
                  rw [h1]
                  simp [hid, hasg, hl, hr, ih]
              | some rt =>
                  have h1 : paramOfChild c
                      = some ⟨lt.text, some rt.text, rt.lsp_range⟩ := by
                    simp [paramOfChild, hid, hasg, hl, hr]
                  rw [h1]
                  simp [hid, hasg, hl, hr, ih]
                  omega
        · have h1 : paramOfChild c = none := by
            simp [paramOfChild, hid, hasg]
          rw [h1]
          simp [hid, hasg, ih]

/-- Claim C3: a parameter-list node with N direct identifier children and
M direct assignment children carrying both a `left` and a `right` field
yields exactly N+M parameters; extraction distributes over child
concatenation (so order is preserved), `special_variable` children yield
nothing, and the two productive child shapes each yield exactly their
parameter. -/
theorem c3_param_extraction :
    (∀ n : Node, (Param.parse_declaration n).length
        = n.childrenNodes.countP (fun c => c.kind == "identifier")
          + n.childrenNodes.countP (fun c =>
              c.kind == "assignment"
              && (c.child_by_field_name "left").isSome
              && (c.child_by_field_name "right").isSome))
    ∧ (∀ (k t : String) (b : Bool) (r : Range) (cs₁ cs₂ : List (Option String × Node)),
        Param.parse_declaration (Node.mk k t b r (cs₁ ++ cs₂))
          = Param.parse_declaration (Node.mk k t b r cs₁)
            ++ Param.parse_declaration (Node.mk k t b r cs₂))
    ∧ (∀ c : Node, c.kind = "special_variable" → paramOfChild c = none)
    ∧ (∀ c : Node, c.kind = "identifier" →
        paramOfChild c = some ⟨c.text, none, c.lsp_range⟩)
    ∧ (∀ (c lt rt : Node), c.kind = "assignment" →
        c.child_by_field_name "left" = some lt →
        c.child_by_field_name "right" = some rt →
        paramOfChild c = some ⟨lt.text, some rt.text, rt.lsp_range⟩) := by
  refine ⟨?_, ?_, ?_, ?_, ?_⟩
  · intro n
    exact length_filterMap_paramOfChild n.childrenNodes
  · intro k t b r cs₁ cs₂
    simp [Param.parse_declaration, Node.childrenNodes, Node.childrenRaw,
      List.filterMap_append]
  · intro c h
    simp [paramOfChild, h]
  · intro c h
    simp [paramOfChild, h]
  · intro c lt rt h hl hr
    simp [paramOfChild, h, hl, hr]

theorem c3_param_extraction_witness :
    ((Param.parse_declaration paramListNode).length
        = paramListNode.childrenNodes.countP (fun c => c.kind == "identifier")
          + paramListNode.childrenNodes.countP (fun c =>
              c.kind == "assignment"
              && (c.child_by_field_name "left").isSome
              && (c.child_by_field_name "right").isSome))
    ∧ (Param.parse_declaration paramListNode).length = 2
    ∧ paramOfChild (Node.mk "special_variable" "$fn" true Range.zero []) = none
    ∧ paramOfChild (Node.mk "identifier" "a" true Range.zero [])
        = some ⟨"a", none, Range.zero⟩
    ∧ paramOfChild (Node.mk "assignment" "b = 5" true Range.zero
          [(some "left", Node.mk "identifier" "b" true Range.zero []),
           (some "right", Node.mk "number" "5" true Range.zero [])])
        = some ⟨"b", some "5", Range.zero⟩ :=
  ⟨c3_param_extraction.1 paramListNode,
   by decide,
   c3_param_extraction.2.2.1 _ rfl,
   c3_param_extraction.2.2.2.1 _ rfl,
   c3_param_extraction.2.2.2.2 _ (Node.mk "identifier" "b" true Range.zero [])
     (Node.mk "number" "5" true Range.zero []) rfl rfl rfl⟩

/-- Claim C9: `Item::parse` never hard-fails — it returns `none` exactly
when the node kind is not one of the three recognized kinds or when the
required name field (`name` for module/function declarations, `left` for
assignments) is absent, and any produced item carries the variant
matching the node kind. -/
theorem c9_parse_graceful (n : Node) :
    (Item.parse n = none ↔
        ((n.kind ≠ "module_declaration" ∧ n.kind ≠ "function_declaration"
            ∧ n.kind ≠ "assignment")
          ∨ (n.kind = "module_declaration" ∧ n.child_by_field_name "name" = none)
          ∨ (n.kind = "function_declaration" ∧ n.child_by_field_name "name" = none)
          ∨ (n.kind = "assignment" ∧ n.child_by_field_name "left" = none)))
    ∧ (∀ it, Item.parse n = some it →
        (n.kind = "module_declaration"
          ∧ it.kind = ItemKind.Module (Item.moduleFlags n) (paramsField n))
        ∨ (n.kind = "function_declaration"
          ∧ it.kind = ItemKind.Function (Item.functionFlags n) (paramsField n))
        ∨ (n.kind = "assignment" ∧ it.kind = ItemKind.Variable)) := by
  by_cases h1 : n.kind = "module_declaration"
  · constructor
    · cases hname : n.child_by_field_name "name" <;>
        simp [Item.parse, h1, hname]
    · intro it hit
      left
      refine ⟨h1, ?_⟩
      simp only [Item.parse, h1, if_pos] at hit
      cases hname : n.child_by_field_name "name" with
      | none => rw [hname] at hit; simp at hit
      | some nameNode =>
          rw [hname] at hit
          simp at hit
          subst hit
          rfl
  · by_cases h2 : n.kind = "function_declaration"
    · constructor
      · cases hname : n.child_by_field_name "name" <;>
          simp [Item.parse, h1, h2, hname]
      · intro it hit
        right; left
        refine ⟨h2, ?_⟩
        simp only [Item.parse, h1, h2, if_pos, if_neg] at hit
        cases hname : n.child_by_field_name "name" with
        | none => rw [hname] at hit; simp at hit
        | some nameNode =>
            rw [hname] at hit
            simp at hit
            subst hit
            rfl
    · by_cases h3 : n.kind = "assignment"
      · constructor
        · cases hname : n.child_by_field_name "left" <;>
            simp [Item.parse, h1, h2, h3, hname]
        · intro it hit
          right; right
          refine ⟨h3, ?_⟩
          simp only [Item.parse, h1, h2, h3, if_pos, if_neg] at hit
          cases hname : n.child_by_field_name "left" with
          | none => rw [hname] at hit; simp at hit
          | some nameNode =>
              rw [hname] at hit
              simp at hit
              subst hit
              rfl
      · constructor
        · simp [Item.parse, h1, h2, h3]
        · intro it hit
          simp [Item.parse, h1, h2, h3] at hit

theorem c9_parse_graceful_witness :
    ((moduleNode.kind = "module_declaration"
        ∧ (Item.mk "foo" (ItemKind.Module (Item.moduleFlags moduleNode)
            (paramsField moduleNode)) Range.zero none false none none none none).kind
          = ItemKind.Module (Item.moduleFlags moduleNode) (paramsField moduleNode))
      ∨ (moduleNode.kind = "function_declaration"
        ∧ (Item.mk "foo" (ItemKind.Module (Item.moduleFlags moduleNode)
            (paramsField moduleNode)) Range.zero none false none none none none).kind
          = ItemKind.Function (Item.functionFlags moduleNode) (paramsField moduleNode))
      ∨ (moduleNode.kind = "assignment"
        ∧ (Item.mk "foo" (ItemKind.Module (Item.moduleFlags moduleNode)
            (paramsField moduleNode)) Range.zero none false none none none none).kind
          = ItemKind.Variable))
    ∧ (Item.parse (Node.mk "weird_kind" "" true Range.zero []) = none ↔
        (((Node.mk "weird_kind" "" true Range.zero []).kind ≠ "module_declaration"
            ∧ (Node.mk "weird_kind" "" true Range.zero []).kind ≠ "function_declaration"
            ∧ (Node.mk "weird_kind" "" true Range.zero []).kind ≠ "assignment")
          ∨ ((Node.mk "weird_kind" "" true Range.zero []).kind = "module_declaration"
            ∧ (Node.mk "weird_kind" "" true Range.zero []).child_by_field_name "name" = none)
          ∨ ((Node.mk "weird_kind" "" true Range.zero []).kind = "function_declaration"
            ∧ (Node.mk "weird_kind" "" true Range.zero []).child_by_field_name "name" = none)
          ∨ ((Node.mk "weird_kind" "" true Range.zero []).kind = "assignment"
            ∧ (Node.mk "weird_kind" "" true Range.zero []).child_by_field_name "left" = none))) :=
  ⟨(c9_parse_graceful moduleNode).2
      (Item.mk "foo" (ItemKind.Module (Item.moduleFlags moduleNode)
        (paramsField moduleNode)) Range.zero none false none none none none) rfl,
   (c9_parse_graceful (Node.mk "weird_kind" "" true Range.zero [])).1⟩

theorem c6_label_plain_witness :
    itemAB.make_label = itemAB.name ++ "(" ++ format_params [pa, pb] ++ ")"
    ∧ itemAB.make_label = "name(a, b=5)"
    ∧ ¬ strContains itemAB.make_label "$\x7b"
    ∧ ¬ strContains itemAB.make_label "$0" :=
  ⟨(c6_label_plain itemAB).2.2.1 BuiltinFlags.IGNORE_PARAM_NAME [pa, pb] rfl,
   by decide,
   ((c6_label_plain itemAB).2.2.2.2 (by decide) (by decide)).1,
   ((c6_label_plain itemAB).2.2.2.2 (by decide) (by decide)).2⟩
